import Mathlib

set_option maxHeartbeats 1000000

/-! Shallow embedding of the client-side short-clip extraction and rendering
    pipeline (TypeScript sources: the audio/frame utility module and the
    shorts-creator component).  Machine floats are modelled as rationals,
    byte buffers as lists of naturals, and strings as lists of characters
    where character-level processing matters. -/

/-- An AudioBuffer: a sample rate plus per-channel sample data (floats as rationals). -/
structure AudioBuffer where
  sampleRate : ℕ
  channels : List (List ℚ)
deriving DecidableEq

/-- numberOfChannels of the buffer. -/
def AudioBuffer.numberOfChannels (b : AudioBuffer) : ℕ := b.channels.length

/-- getChannelData from the Web Audio model: channel c of the buffer. -/
def getChannelData (b : AudioBuffer) (c : ℕ) : List ℚ := b.channels.getD c []

/-- Frame count of the buffer (all channels share it in a well-formed buffer). -/
def AudioBuffer.length (b : AudioBuffer) : ℕ := (b.channels.getD 0 []).length

/-- Duration in seconds: frame count divided by sample rate. -/
def AudioBuffer.duration (b : AudioBuffer) : ℚ := (b.length : ℚ) / (b.sampleRate : ℚ)

/-- Well-formedness: every channel holds exactly the buffer's frame count. -/
def WellFormedBuffer (b : AudioBuffer) : Prop := ∀ ch ∈ b.channels, ch.length = b.length

/-- Stereo interleaving from audioBufferToWav: result[2i] = left[i], result[2i+1] = right[i]. -/
def interleave2 (l r : List ℚ) : List ℚ := (l.zip r).flatMap (fun p => [p.1, p.2])

/-- The float sample sequence serialized by audioBufferToWav: interleave when the
    buffer is stereo, otherwise channel 0. -/
def wavResult (b : AudioBuffer) : List ℚ :=
  if b.numberOfChannels = 2 then interleave2 (getChannelData b 0) (getChannelData b 1)
  else getChannelData b 0

/-- Truncation toward zero, as JavaScript performs when assigning a float into an
    Int16Array slot. -/
def ratTrunc (q : ℚ) : ℤ := if q < 0 then ⌈q⌉ else ⌊q⌋

/-- Sample conversion from audioBufferToWav: clamp to [-1,1]; scale by 0x8000 when
    negative, else by 0x7FFF. -/
def floatTo16 (x : ℚ) : ℤ :=
  if max (-1) (min 1 x) < 0 then ratTrunc (max (-1) (min 1 x) * 32768)
  else ratTrunc (max (-1) (min 1 x) * 32767)

/-- Little-endian 16-bit write (DataView.setUint16 with littleEndian = true). -/
def u16le (v : ℕ) : List ℕ := [v % 256, v / 256 % 256]

/-- Little-endian 32-bit write (DataView.setUint32 with littleEndian = true). -/
def u32le (v : ℕ) : List ℕ := [v % 256, v / 256 % 256, v / 65536 % 256, v / 16777216 % 256]

/-- Little-endian two's-complement 16-bit sample write (Int16Array slot). -/
def i16le (v : ℤ) : List ℕ := u16le (v % 65536).toNat

/-- writeString from the source: the character codes of the string. -/
def writeString (s : String) : List ℕ := s.data.map Char.toNat

/-- The 44-byte RIFF/WAVE header written by audioBufferToWav. -/
def wavHeader (numChannels sampleRate dataSize : ℕ) : List ℕ :=
  writeString "RIFF" ++ u32le (36 + dataSize) ++ writeString "WAVE" ++
  writeString "fmt " ++ u32le 16 ++ u16le 1 ++ u16le numChannels ++ u32le sampleRate ++
  u32le (sampleRate * (numChannels * 2)) ++ u16le (numChannels * 2) ++ u16le 16 ++
  writeString "data" ++ u32le dataSize

/-- audioBufferToWav from the source: 44-byte header followed by the converted
    16-bit samples (the final base64 transport step is not modelled; this is the
    byte content of the WAV buffer). -/
def audioBufferToWav (b : AudioBuffer) : List ℕ :=
  wavHeader b.numberOfChannels b.sampleRate ((wavResult b).length * 2) ++
  (wavResult b).flatMap (fun x => i16le (floatTo16 x))

/-- Little-endian 16-bit read at a byte offset. -/
def readU16 (l : List ℕ) (off : ℕ) : ℕ :=
  match l.drop off with
  | b0 :: b1 :: _ => b0 + 256 * b1
  | _ => 0

/-- Little-endian 32-bit read at a byte offset. -/
def readU32 (l : List ℕ) (off : ℕ) : ℕ :=
  match l.drop off with
  | b0 :: b1 :: b2 :: b3 :: _ => b0 + 256 * b1 + 65536 * b2 + 16777216 * b3
  | _ => 0

/-- Fields recovered by parsing a WAV header. -/
structure WavHeaderInfo where
  dataSize : ℕ
  sampleRate : ℕ
  channelCount : ℕ
  bitDepth : ℕ
deriving DecidableEq

/-- Parse the 44-byte PCM WAV header: check the RIFF/WAVE/data magics and read
    back dataSize, sampleRate, channelCount and bitDepth. -/
def parseWavHeader (bytes : List ℕ) : Option WavHeaderInfo :=
  if 44 ≤ bytes.length ∧ bytes.take 4 = writeString "RIFF" ∧
     (bytes.drop 8).take 4 = writeString "WAVE" ∧ (bytes.drop 36).take 4 = writeString "data"
  then some ⟨readU32 bytes 40, readU32 bytes 24, readU16 bytes 22, readU16 bytes 34⟩
  else none

/-- The byte-layout property claimed for the WAV serializer. -/
def WavLayout (b : AudioBuffer) : Prop :=
  (audioBufferToWav b).take 4 = writeString "RIFF" ∧
  readU32 (audioBufferToWav b) 4 = 36 + (wavResult b).length * 2 ∧
  ((audioBufferToWav b).drop 8).take 4 = writeString "WAVE" ∧
  ((audioBufferToWav b).drop 12).take 4 = writeString "fmt " ∧
  readU32 (audioBufferToWav b) 16 = 16 ∧
  readU16 (audioBufferToWav b) 20 = 1 ∧
  readU16 (audioBufferToWav b) 22 = b.numberOfChannels ∧
  readU32 (audioBufferToWav b) 24 = b.sampleRate ∧
  readU32 (audioBufferToWav b) 28 = b.sampleRate * (b.numberOfChannels * 2) ∧
  readU16 (audioBufferToWav b) 32 = b.numberOfChannels * 2 ∧
  readU16 (audioBufferToWav b) 34 = 16 ∧
  ((audioBufferToWav b).drop 36).take 4 = writeString "data" ∧
  readU32 (audioBufferToWav b) 40 = (wavResult b).length * 2 ∧
  (audioBufferToWav b).drop 44 = (wavResult b).flatMap (fun x => i16le (floatTo16 x)) ∧
  (∀ i, i < (wavResult b).length →
     readU16 ((audioBufferToWav b).drop 44) (2 * i) =
       ((floatTo16 ((wavResult b).getD i 0)) % 65536).toNat) ∧
  parseWavHeader (audioBufferToWav b) =
    some ⟨(wavResult b).length * 2, b.sampleRate, b.numberOfChannels, 16⟩

/-- The 120-second cap applied before sending audio to the analysis collaborator. -/
def MAX_DURATION : ℕ := 120

/-- Mono down-mix from extractAudioFromVideo: when multi-channel, each output
    sample is the sum of all channels at that index divided by the channel count. -/
def downmixMono (b : AudioBuffer) : AudioBuffer :=
  if 1 < b.numberOfChannels then
    { sampleRate := b.sampleRate,
      channels := [(List.range b.length).map
        (fun i => (b.channels.map (fun ch => ch.getD i 0)).sum / (b.numberOfChannels : ℚ))] }
  else b

/-- Duration cap from extractAudioFromVideo: when the mono buffer is longer than
    MAX_DURATION seconds, keep exactly MAX_DURATION * sampleRate samples. -/
def truncateBuffer (b : AudioBuffer) : AudioBuffer :=
  if (MAX_DURATION : ℚ) < b.duration then
    { sampleRate := b.sampleRate,
      channels := [(b.channels.getD 0 []).take (MAX_DURATION * b.sampleRate)] }
  else b

/-- The processing applied by extractAudioFromVideo after decoding: down-mix then cap. -/
def processAudio (b : AudioBuffer) : AudioBuffer := truncateBuffer (downmixMono b)

/-- The audio-normalization property claimed of the extractor. -/
def AudioNormalizeSpec (b : AudioBuffer) : Prop :=
  (1 < b.numberOfChannels →
    (downmixMono b).numberOfChannels = 1 ∧
    (downmixMono b).sampleRate = b.sampleRate ∧
    (downmixMono b).length = b.length ∧
    ∀ i, i < b.length →
      (getChannelData (downmixMono b) 0).getD i 0 =
        (∑ c ∈ Finset.range b.numberOfChannels, (getChannelData b c).getD i 0) /
          (b.numberOfChannels : ℚ)) ∧
  ((MAX_DURATION : ℚ) < (downmixMono b).duration →
    (processAudio b).sampleRate = b.sampleRate ∧
    (processAudio b).length = MAX_DURATION * b.sampleRate ∧
    (processAudio b).duration = (MAX_DURATION : ℚ) ∧
    getChannelData (processAudio b) 0 =
      (getChannelData (downmixMono b) 0).take (MAX_DURATION * b.sampleRate))

/-- Trace of one run of extractVideoFrames: the timestamps seeked to, the kept
    frame payload sizes, and the progress values reported. -/
structure ExtractTrace where
  seeks : List ℚ
  frames : List ℕ
  progress : List ℚ
deriving DecidableEq

/-- One iteration of the extractVideoFrames loop at index i: seek to
    i * (duration / frameCount); capture; skip the frame when the encoded payload
    is missing or shorter than 100 characters; report progress either way. -/
def extractStep (dur : ℚ) (n : ℕ) (payload : ℕ → Option ℕ) (acc : ExtractTrace) (i : ℕ) :
    ExtractTrace :=
  let time := (i : ℚ) * (dur / (n : ℚ))
  let prog := ((i : ℚ) + 1) / (n : ℚ) * 100
  match payload i with
  | none => ⟨acc.seeks ++ [time], acc.frames, acc.progress ++ [prog]⟩
  | some len =>
    if len < 100 then ⟨acc.seeks ++ [time], acc.frames, acc.progress ++ [prog]⟩
    else ⟨acc.seeks ++ [time], acc.frames ++ [len], acc.progress ++ [prog]⟩

/-- extractVideoFrames from the source, as the trace of its for-loop over the
    frame indices 0, ..., frameCount - 1.  The payload function gives the base64
    payload length captured after the seek at each index (none models a missing
    data-URL payload). -/
def extractVideoFrames (dur : ℚ) (n : ℕ) (payload : ℕ → Option ℕ) : ExtractTrace :=
  (List.range n).foldl (extractStep dur n payload) ⟨[], [], []⟩

/-- Contribution of index i to the kept frame list. -/
def keptOpt (payload : ℕ → Option ℕ) (i : ℕ) : List ℕ :=
  match payload i with
  | none => []
  | some len => if len < 100 then [] else [len]

/-- The frame-sampling property claimed of extractVideoFrames. -/
def FrameSamplerSpec (dur : ℚ) (n : ℕ) (payload : ℕ → Option ℕ) : Prop :=
  (extractVideoFrames dur n payload).frames.length ≤ n ∧
  (extractVideoFrames dur n payload).seeks =
    (List.range n).map (fun i : ℕ => (i : ℚ) * (dur / (n : ℚ))) ∧
  (∀ t ∈ (extractVideoFrames dur n payload).seeks, t < dur) ∧
  (extractVideoFrames dur n payload).progress =
    (List.range n).map (fun i : ℕ => ((i : ℚ) + 1) / (n : ℚ) * 100)

/-- Audio decode failure (any reason: unreadable container, no audio track, ...). -/
inductive DecodeErr
| decodeFailed
deriving DecidableEq

/-- extractAudioFromVideo from the source: its try/catch returns null on any
    decode failure; on success it down-mixes, caps and WAV-serializes. -/
def extractAudioFromVideo (decoded : Except DecodeErr AudioBuffer) : Option (List ℕ) :=
  match decoded with
  | .error _ => none
  | .ok audioBuffer => some (audioBufferToWav (processAudio audioBuffer))

/-- Failure of the mandatory frame-extraction step of analysis preparation. -/
inductive PrepError
| frameError
deriving DecidableEq

/-- The analysis-input preparation flow of handleSubmit: audio extraction first
    (cannot throw: it yields none on failure), then frame extraction, whose
    failure propagates to the surrounding catch and aborts preparation. -/
def prepareAnalysisInputs (decodedAudio : Except DecodeErr AudioBuffer)
    (framesResult : Except PrepError ExtractTrace) :
    Except PrepError (ExtractTrace × Option (List ℕ)) :=
  match framesResult with
  | .error e => .error e
  | .ok frames => .ok (frames, extractAudioFromVideo decodedAudio)

/-- Caption position values of the data model. -/
inductive SubPosition
| top
| middle
| bottom
deriving DecidableEq

/-- A subtitle/caption as in the source's Subtitle interface. -/
structure Subtitle where
  text : List Char
  start : ℚ
  «end» : ℚ
  fontSize : Option ℚ
  position : Option SubPosition
deriving DecidableEq

/-- Split on every occurrence of the two-character separator newline-newline,
    as String.split does in parseSrt. -/
def splitBlocksAux : List Char → List Char → List (List Char)
  | acc, [] => [acc.reverse]
  | acc, '\n' :: '\n' :: rest => acc.reverse :: splitBlocksAux [] rest
  | acc, c :: rest => splitBlocksAux (c :: acc) rest

/-- The blank-line-delimited blocks of an SRT text. -/
def splitBlocks (l : List Char) : List (List Char) := splitBlocksAux [] l

/-- Split on every character satisfying p, keeping empty segments, as
    String.split on a character-class regex does. -/
def splitOnPred (p : Char → Bool) : List Char → List (List Char)
  | [] => [[]]
  | c :: rest =>
    if p c then [] :: splitOnPred p rest
    else
      match splitOnPred p rest with
      | [] => [[c]]
      | g :: gs => (c :: g) :: gs

/-- The delimiter class of timeToSeconds: colon, comma or dot. -/
def isDelim (c : Char) : Bool := c == ':' || c == ',' || c == '.'

/-- parseInt on the digit strings reachable in timeToSeconds: the value of the
    leading run of decimal digits. -/
def parseIntDigits (l : List Char) : ℕ :=
  (l.takeWhile Char.isDigit).foldl (fun a c => a * 10 + (c.toNat - 48)) 0

/-- timeToSeconds from parseSrt: split the timestamp on colon, comma and dot and
    combine as h*3600 + m*60 + s + ms/1000 (ms defaults to 0 when absent). -/
def timeToSeconds (time : List Char) : ℚ :=
  if (splitOnPred isDelim time).length < 3 then 0
  else
    ((parseIntDigits ((splitOnPred isDelim time).getD 0 [])) : ℚ) * 3600 +
    ((parseIntDigits ((splitOnPred isDelim time).getD 1 [])) : ℚ) * 60 +
    ((parseIntDigits ((splitOnPred isDelim time).getD 2 [])) : ℚ) +
    (if (splitOnPred isDelim time).getD 3 [] ≠ []
     then ((parseIntDigits ((splitOnPred isDelim time).getD 3 [])) : ℚ) else 0) / 1000

/-- The milliseconds separator class of the timestamp pattern: comma or dot. -/
def isSepChar (c : Char) : Bool := c == ',' || c == '.'

/-- Match one timestamp of the pattern, two digits, colon, two digits, colon,
    two digits, separator, three digits, at the head of the list; return the
    twelve matched characters and the remainder. -/
def matchTS : List Char → Option (List Char × List Char)
  | d1 :: d2 :: c1 :: d3 :: d4 :: c2 :: d5 :: d6 :: sp :: m1 :: m2 :: m3 :: rest =>
    if d1.isDigit && d2.isDigit && c1 == ':' && d3.isDigit && d4.isDigit && c2 == ':' &&
       d5.isDigit && d6.isDigit && isSepChar sp && m1.isDigit && m2.isDigit && m3.isDigit
    then some ([d1, d2, c1, d3, d4, c2, d5, d6, sp, m1, m2, m3], rest)
    else none
  | _ => none

/-- Match the full timestamp-arrow-timestamp pattern at the head of the list,
    returning the two captured timestamps. -/
def matchPair (l : List Char) : Option (List Char × List Char) :=
  match matchTS l with
  | none => none
  | some (t1, rest) =>
    match rest.dropWhile Char.isWhitespace with
    | '-' :: '-' :: '>' :: rest3 =>
      match matchTS (rest3.dropWhile Char.isWhitespace) with
      | some (t2, _) => some (t1, t2)
      | none => none
    | _ => none

/-- First (leftmost) match of the timestamp pattern in the line, as the regex
    match in parseSrt finds it. -/
def findTimeMatch : List Char → Option (List Char × List Char)
  | [] => none
  | c :: rest =>
    match matchPair (c :: rest) with
    | some r => some r
    | none => findTimeMatch rest

/-- String.trim: strip whitespace from both ends. -/
def trimChars (l : List Char) : List Char :=
  ((l.dropWhile Char.isWhitespace).reverse.dropWhile Char.isWhitespace).reverse

/-- One block of the parseSrt loop: skip blank blocks and blocks of fewer than
    three lines; require the timestamp pattern on the second line; join the
    remaining lines with single spaces; drop the block when the trimmed text is
    empty. -/
def parseBlock (block : List Char) : Option Subtitle :=
  if trimChars block = [] then none
  else if 3 ≤ (block.splitOn '\n').length then
    match findTimeMatch ((block.splitOn '\n').getD 1 []) with
    | some (t1, t2) =>
      if trimChars (List.intercalate [' '] ((block.splitOn '\n').drop 2)) = [] then none
      else some { text := trimChars (List.intercalate [' '] ((block.splitOn '\n').drop 2)),
                  start := timeToSeconds t1,
                  «end» := timeToSeconds t2,
                  fontSize := none,
                  position := none }
    | none => none
  else none

/-- parseSrt from the source: strip carriage returns, split into blank-line
    blocks, and keep every block that parses. -/
def parseSrt (srtText : List Char) : List Subtitle :=
  (splitBlocks (srtText.filter (fun c => !(c == '\r')))).filterMap parseBlock

/-- Character of a single decimal digit. -/
def digitChar (n : ℕ) : Char := Char.ofNat (48 + n)

/-- Two-digit decimal rendering (for quantifying over well-formed timestamps). -/
def twoDigits (n : ℕ) : List Char := [digitChar (n / 10), digitChar (n % 10)]

/-- Three-digit decimal rendering (for quantifying over well-formed timestamps). -/
def threeDigits (n : ℕ) : List Char := [digitChar (n / 100), digitChar (n / 10 % 10), digitChar (n % 10)]

/-- The analysis collaborator's JSON response as consumed by handleSubmit: each
    field is present-and-of-the-right-type or not (none models absent, null or a
    wrongly-typed value). -/
structure PartialResult where
  startTime : Option ℚ
  endTime : Option ℚ
  subtitles : Option (List Subtitle)
deriving DecidableEq

/-- The two distinct invalid-analysis-response errors thrown by handleSubmit. -/
inductive AnalysisError
| invalidTimingResponse
| invalidStructureResponse
deriving DecidableEq

/-- A validated clip window. -/
structure ClipAnalysis where
  startTime : ℚ
  endTime : ℚ
  subtitles : List Subtitle
deriving DecidableEq

/-- The response validation of handleSubmit: with an external SRT file the
    response must carry numeric startTime and endTime (subtitles come from the
    SRT text); without one it must also carry a subtitles array. -/
def validateAnalysis (srtContent : Option (List Char)) (r : PartialResult) :
    Except AnalysisError ClipAnalysis :=
  match srtContent with
  | some srt =>
    match r.startTime, r.endTime with
    | some st, some et => .ok ⟨st, et, parseSrt srt⟩
    | _, _ => .error .invalidTimingResponse
  | none =>
    match r.startTime, r.endTime, r.subtitles with
    | some st, some et, some subs => .ok ⟨st, et, subs⟩
    | _, _, _ => .error .invalidStructureResponse

/-- FADE_DURATION from the render loop: 0.75 seconds. -/
def FADE_DURATION : ℚ := 3 / 4

/-- The per-frame fade factor computed by the render loop. -/
def frameAlpha (useFade : Bool) (clipT clipDuration : ℚ) : ℚ :=
  if useFade then
    if clipT < FADE_DURATION then clipT / FADE_DURATION
    else if clipDuration - FADE_DURATION < clipT then (clipDuration - clipT) / FADE_DURATION
    else 1
  else 1

/-- Clamp to [0, 1], as ctx.globalAlpha is assigned Math.max(0, Math.min(1, a)). -/
def clamp01 (x : ℚ) : ℚ := max 0 (min 1 x)

/-- The opacity actually applied to the canvas for a frame. -/
def appliedAlpha (useFade : Bool) (clipT clipDuration : ℚ) : ℚ :=
  clamp01 (frameAlpha useFade clipT clipDuration)

/-- The fade property claimed of the render loop. -/
def FadeSpec (useFade : Bool) (clipT clipDuration : ℚ) : Prop :=
  (0 ≤ appliedAlpha useFade clipT clipDuration ∧ appliedAlpha useFade clipT clipDuration ≤ 1) ∧
  (useFade = true → FADE_DURATION ≤ clipT → clipT ≤ clipDuration - FADE_DURATION →
    frameAlpha useFade clipT clipDuration = 1) ∧
  (useFade = true → clipT < FADE_DURATION →
    frameAlpha useFade clipT clipDuration = clipT / FADE_DURATION) ∧
  (useFade = true → FADE_DURATION ≤ clipT → clipDuration - FADE_DURATION < clipT →
    frameAlpha useFade clipT clipDuration = (clipDuration - clipT) / FADE_DURATION) ∧
  (useFade = false → frameAlpha useFade clipT clipDuration = 1)

/-- The ordered container/codec preference list of handleDownload. -/
def mimeTypeCandidates : List String :=
  ["video/webm;codecs=vp9,opus", "video/webm;codecs=vp8,opus", "video/webm", "video/mp4"]

/-- The container/codec choice of handleDownload: the first supported candidate,
    or the bare webm type when none is supported. -/
def chooseMimeType (isSupported : String → Bool) : String :=
  (mimeTypeCandidates.find? isSupported).getD "video/webm"

/-- A selected video file as seen by handleFileChange: whether its metadata
    loads, and its reported duration. -/
structure VideoFile where
  metadataOk : Bool
  duration : ℚ
deriving DecidableEq

/-- The two error conditions reported by handleFileChange. -/
inductive SelectError
| tooShort
| loadFailed
deriving DecidableEq

/-- The component state touched by handleFileChange, plus the object URLs it
    revoked. -/
structure SelectState where
  videoFile : Option VideoFile
  videoPreviewUrl : Option ℕ
  error : Option SelectError
  revokedUrls : List ℕ
deriving DecidableEq

/-- handleFileChange from the source: reset everything, then accept the file
    only when its metadata loads and its duration is at least 30 seconds;
    otherwise report an error and revoke the freshly created object URL. -/
def handleFileChange (file : Option VideoFile) (url : ℕ) : SelectState :=
  match file with
  | none => ⟨none, none, none, []⟩
  | some f =>
    if f.metadataOk then
      if f.duration < 30 then ⟨none, none, some .tooShort, [url]⟩
      else ⟨some f, some url, none, []⟩
    else ⟨none, none, some .loadFailed, [url]⟩

/-- The guard at the head of handleSubmit: it returns immediately unless a video
    file is set and no submission is in flight. -/
def handleSubmitGuard (videoFile : Option VideoFile) (isLoading : Bool) : Bool :=
  videoFile.isSome && !isLoading

/-- The guard at the head of handleDownload: it returns immediately unless a
    video file and an analysis result are set and no render is in flight. -/
def handleDownloadGuard (videoFile : Option VideoFile) (analysisResult : Option ClipAnalysis)
    (isRendering : Bool) : Bool :=
  videoFile.isSome && analysisResult.isSome && !isRendering

/-- The file-selection property claimed of handleFileChange. -/
def SelectSpec (f : VideoFile) (url : ℕ) : Prop :=
  (f.duration < 30 →
    (handleFileChange (some f) url).videoFile = none ∧
    (handleFileChange (some f) url).videoPreviewUrl = none ∧
    (handleFileChange (some f) url).error = some .tooShort ∧
    url ∈ (handleFileChange (some f) url).revokedUrls ∧
    (∀ loading, handleSubmitGuard (handleFileChange (some f) url).videoFile loading = false) ∧
    (∀ res rendering,
      handleDownloadGuard (handleFileChange (some f) url).videoFile res rendering = false)) ∧
  (30 ≤ f.duration →
    (handleFileChange (some f) url).videoFile = some f ∧
    (handleFileChange (some f) url).videoPreviewUrl = some url ∧
    (handleFileChange (some f) url).error = none ∧
    (handleFileChange (some f) url).revokedUrls = [])

/-- Decomposition of a successful list search: the found element is the first
    satisfying one, everything before it failing the predicate. -/
theorem find?_decomp {α : Type} (p : α → Bool) :
    ∀ (l : List α) (m : α), l.find? p = some m →
      ∃ l1 l2, l = l1 ++ m :: l2 ∧ ∀ x ∈ l1, p x = false := by
  intro l
  induction l with
  | nil => intro m h; simp [List.find?] at h
  | cons a l ih =>
    intro m h
    rw [List.find?_cons] at h
    by_cases ha : p a
    · simp [ha] at h
      exact ⟨[], l, by simp [h], by simp⟩
    · simp [ha] at h
      obtain ⟨l1, l2, hl, hfail⟩ := ih m h
      refine ⟨a :: l1, l2, by simp [hl], ?_⟩
      intro x hx
      rcases List.mem_cons.mp hx with rfl | hx'
      · simpa using ha
      · exact hfail x hx'

/-- C2 (counterexample): a response with numeric startTime and endTime but with
    endTime less than startTime is accepted by the validation of handleSubmit,
    so a response violating the claimed endTime > startTime condition does not
    make the operation fail. -/
theorem C2_counterexample :
    validateAnalysis none ⟨some 5, some 3, some []⟩ = .ok ⟨5, 3, []⟩ ∧ ¬ ((3 : ℚ) > 5) :=
  ⟨rfl, by norm_num⟩

/-- C2 (amended): handleSubmit validates that startTime and endTime are numeric,
    and, when no external subtitle file was supplied, that the captions field is
    present and a list; any response violating these checked conditions fails
    with a distinct invalid-analysis-response error.  The endTime > startTime
    condition is not validated. -/
theorem C2_validateAnalysis (srt : Option (List Char)) (r : PartialResult) :
    ((∃ c, validateAnalysis srt r = .ok c) ↔
      (r.startTime.isSome ∧ r.endTime.isSome ∧ (srt.isSome ∨ r.subtitles.isSome))) ∧
    (∀ e, validateAnalysis srt r = .error e →
      (srt.isSome = true ∧ e = .invalidTimingResponse) ∨
      (srt = none ∧ e = .invalidStructureResponse)) := by
  rcases r with ⟨st, et, subs⟩
  cases srt <;> cases st <;> cases et <;> cases subs <;>
    simp [validateAnalysis]

/-- Witness for C2: a response missing every field fails validation with the
    distinct structure error. -/
theorem C2_validateAnalysis_witness :
    validateAnalysis none ⟨none, none, none⟩ = .error .invalidStructureResponse ∧
    (((none : Option (List Char)).isSome = true ∧
        AnalysisError.invalidStructureResponse = .invalidTimingResponse) ∨
      ((none : Option (List Char)) = none ∧
        AnalysisError.invalidStructureResponse = .invalidStructureResponse)) :=
  ⟨rfl, (C2_validateAnalysis none ⟨none, none, none⟩).2 _ rfl⟩

/-- C4: for a positive clip duration and a sampled time inside the clip, the
    fade opacity is 1 outside the two FADE_DURATION boundary bands, ramps
    linearly to 0 at each boundary inside them, and the value actually applied
    to the canvas is always within [0, 1], in particular also when the two
    bands overlap. -/
theorem C4_fade (useFade : Bool) (clipT clipDuration : ℚ)
    (hdur : 0 < clipDuration) (ht0 : 0 ≤ clipT) (ht1 : clipT < clipDuration) :
    FadeSpec useFade clipT clipDuration := by
  refine ⟨⟨le_max_left 0 _, max_le (by norm_num) (min_le_left 1 _)⟩, ?_, ?_, ?_, ?_⟩
  · intro hu h1 h2
    simp only [frameAlpha, hu, if_true]
    rw [if_neg (not_lt.mpr h1), if_neg (not_lt.mpr h2)]
  · intro hu h
    simp only [frameAlpha, hu, if_true]
    rw [if_pos h]
  · intro hu h1 h2
    simp only [frameAlpha, hu, if_true]
    rw [if_neg (not_lt.mpr h1), if_pos h2]
  · intro hu
    simp [frameAlpha, hu]

/-- Witness for C4 at a concrete in-clip sample. -/
theorem C4_fade_witness :
    (0 : ℚ) < 2 ∧ (0 : ℚ) ≤ 1 ∧ (1 : ℚ) < 2 ∧ FadeSpec true 1 2 :=
  ⟨by norm_num, by norm_num, by norm_num,
    C4_fade true 1 2 (by norm_num) (by norm_num) (by norm_num)⟩

/-- C7: audio extraction returns the no-audio result on any decode failure
    instead of raising; analysis preparation aborts when frame extraction fails,
    and proceeds without audio (video-only) when only audio decoding failed. -/
theorem C7_audioFailureIsLocal :
    (∀ e, extractAudioFromVideo (.error e) = none) ∧
    (∀ decodedAudio e, prepareAnalysisInputs decodedAudio (.error e) = .error e) ∧
    (∀ e frames, prepareAnalysisInputs (.error e) (.ok frames) = .ok (frames, none)) :=
  ⟨fun _ => rfl, fun _ _ => rfl, fun _ _ => rfl⟩

/-- C8 (counterexample): in an environment supporting none of the candidate
    formats, the render does not fail; it falls back to the bare webm type. -/
theorem C8_counterexample : chooseMimeType (fun _ => false) = "video/webm" := by decide

/-- C8 (amended): the output format is the first entry of the ordered preference
    list that the environment supports; when no candidate is supported the code
    falls back to the bare webm type instead of failing. -/
theorem C8_chooseMimeType (isSupported : String → Bool) :
    (∀ m, mimeTypeCandidates.find? isSupported = some m →
      chooseMimeType isSupported = m ∧ isSupported m = true ∧
      ∃ l1 l2, mimeTypeCandidates = l1 ++ m :: l2 ∧ ∀ x ∈ l1, isSupported x = false) ∧
    (mimeTypeCandidates.find? isSupported = none →
      chooseMimeType isSupported = "video/webm") := by
  constructor
  · intro m h
    refine ⟨by simp [chooseMimeType, h], List.find?_some h, find?_decomp isSupported _ m h⟩
  · intro h
    simp [chooseMimeType, h]

/-- Witness for C8 in an environment supporting exactly the bare webm type. -/
theorem C8_chooseMimeType_witness :
    mimeTypeCandidates.find? (fun s => s == "video/webm") = some "video/webm" ∧
    (chooseMimeType (fun s => s == "video/webm") = "video/webm" ∧
      (fun s : String => s == "video/webm") "video/webm" = true ∧
      ∃ l1 l2, mimeTypeCandidates = l1 ++ "video/webm" :: l2 ∧
        ∀ x ∈ l1, (fun s : String => s == "video/webm") x = false) :=
  ⟨by decide, (C8_chooseMimeType _).1 _ (by decide)⟩

/-- C10: a selected file whose metadata loads with duration below 30 seconds is
    rejected: an error is set, the object URL is revoked, source file and
    preview stay unset, and neither analysis nor render can start; a file of
    duration at least 30 seconds is accepted with its preview URL retained. -/
theorem C10_handleFileChange (f : VideoFile) (url : ℕ) (hmeta : f.metadataOk = true) :
    SelectSpec f url := by
  constructor
  · intro hshort
    simp [handleFileChange, hmeta, hshort, handleSubmitGuard, handleDownloadGuard]
  · intro hlong
    simp [handleFileChange, hmeta, not_lt.mpr hlong]

/-- Witness for C10 on a 10-second file. -/
theorem C10_handleFileChange_witness :
    (⟨true, 10⟩ : VideoFile).metadataOk = true ∧ SelectSpec ⟨true, 10⟩ 0 :=
  ⟨rfl, C10_handleFileChange ⟨true, 10⟩ 0 rfl⟩

/-- One extraction iteration always records exactly one seek, at the intended
    timestamp of its index. -/
theorem extractStep_seeks (dur : ℚ) (n : ℕ) (payload : ℕ → Option ℕ)
    (acc : ExtractTrace) (i : ℕ) :
    (extractStep dur n payload acc i).seeks = acc.seeks ++ [(i : ℚ) * (dur / (n : ℚ))] := by
  unfold extractStep
  cases payload i with
  | none => rfl
  | some len =>
    simp only []
    split <;> rfl

/-- One extraction iteration always reports exactly one progress value, the
    claimed (i+1)/frameCount fraction of 100. -/
theorem extractStep_progress (dur : ℚ) (n : ℕ) (payload : ℕ → Option ℕ)
    (acc : ExtractTrace) (i : ℕ) :
    (extractStep dur n payload acc i).progress =
      acc.progress ++ [((i : ℚ) + 1) / (n : ℚ) * 100] := by
  unfold extractStep
  cases payload i with
  | none => rfl
  | some len =>
    simp only []
    split <;> rfl

/-- One extraction iteration keeps the frame exactly when its payload is present
    and not near-empty. -/
theorem extractStep_frames (dur : ℚ) (n : ℕ) (payload : ℕ → Option ℕ)
    (acc : ExtractTrace) (i : ℕ) :
    (extractStep dur n payload acc i).frames = acc.frames ++ keptOpt payload i := by
  unfold extractStep keptOpt
  cases payload i with
  | none => simp
  | some len =>
    simp only []
    split <;> simp

/-- Accumulated seeks of the extraction loop. -/
theorem extractLoop_seeks (dur : ℚ) (n : ℕ) (payload : ℕ → Option ℕ) :
    ∀ (l : List ℕ) (acc : ExtractTrace),
      ((l.foldl (extractStep dur n payload) acc).seeks) =
        acc.seeks ++ l.map (fun i : ℕ => (i : ℚ) * (dur / (n : ℚ))) := by
  intro l
  induction l with
  | nil => intro acc; simp
  | cons a l ih =>
    intro acc
    simp only [List.foldl_cons, List.map_cons, ih, extractStep_seeks]
    simp

/-- Accumulated progress reports of the extraction loop. -/
theorem extractLoop_progress (dur : ℚ) (n : ℕ) (payload : ℕ → Option ℕ) :
    ∀ (l : List ℕ) (acc : ExtractTrace),
      ((l.foldl (extractStep dur n payload) acc).progress) =
        acc.progress ++ l.map (fun i : ℕ => ((i : ℚ) + 1) / (n : ℚ) * 100) := by
  intro l
  induction l with
  | nil => intro acc; simp
  | cons a l ih =>
    intro acc
    simp only [List.foldl_cons, List.map_cons, ih, extractStep_progress]
    simp

/-- Accumulated kept frames of the extraction loop. -/
theorem extractLoop_frames (dur : ℚ) (n : ℕ) (payload : ℕ → Option ℕ) :
    ∀ (l : List ℕ) (acc : ExtractTrace),
      ((l.foldl (extractStep dur n payload) acc).frames) =
        acc.frames ++ l.flatMap (keptOpt payload) := by
  intro l
  induction l with
  | nil => intro acc; simp
  | cons a l ih =>
    intro acc
    simp only [List.foldl_cons, List.flatMap_cons, ih, extractStep_frames]
    simp

/-- Each index contributes at most one kept frame. -/
theorem keptOpt_length_le (payload : ℕ → Option ℕ) (i : ℕ) :
    (keptOpt payload i).length ≤ 1 := by
  unfold keptOpt
  cases payload i with
  | none => simp
  | some len =>
    simp only []
    split <;> simp

/-- A flatMap of at-most-singletons is no longer than its index list. -/
theorem flatMap_keptOpt_length (payload : ℕ → Option ℕ) :
    ∀ l : List ℕ, (l.flatMap (keptOpt payload)).length ≤ l.length := by
  intro l
  induction l with
  | nil => simp
  | cons a l ih =>
    simp only [List.flatMap_cons, List.length_append, List.length_cons]
    have := keptOpt_length_le payload a
    omega

/-- C6: for positive frameCount and duration, the sampler keeps at most
    frameCount frames, seeks exactly the timestamps i * duration/frameCount,
    never seeks at or past the duration, and reports progress
    (i+1)/frameCount * 100 after every index, skipped frames included. -/
theorem C6_frameSampler (dur : ℚ) (n : ℕ) (payload : ℕ → Option ℕ)
    (hn : 0 < n) (hdur : 0 < dur) : FrameSamplerSpec dur n payload := by
  have hseeks := extractLoop_seeks dur n payload (List.range n) ⟨[], [], []⟩
  have hprog := extractLoop_progress dur n payload (List.range n) ⟨[], [], []⟩
  have hframes := extractLoop_frames dur n payload (List.range n) ⟨[], [], []⟩
  refine ⟨?_, ?_, ?_, ?_⟩
  · rw [extractVideoFrames, hframes]
    simpa using flatMap_keptOpt_length payload (List.range n)
  · rw [extractVideoFrames, hseeks]; rfl
  · intro t ht
    rw [extractVideoFrames, hseeks, List.nil_append] at ht
    obtain ⟨i, hi, rfl⟩ := List.mem_map.mp ht
    rw [List.mem_range] at hi
    have hnq : (0 : ℚ) < (n : ℚ) := by exact_mod_cast hn
    have hiq : (i : ℚ) < (n : ℚ) := by exact_mod_cast hi
    have hdn : (0 : ℚ) < dur / (n : ℚ) := div_pos hdur hnq
    calc (i : ℚ) * (dur / (n : ℚ)) < (n : ℚ) * (dur / (n : ℚ)) :=
          mul_lt_mul_of_pos_right hiq hdn
      _ = dur := by rw [mul_comm, div_mul_cancel₀ _ (ne_of_gt hnq)]
  · rw [extractVideoFrames, hprog]; rfl

/-- Witness for C6 with two frames of a ten-second source. -/
theorem C6_frameSampler_witness :
    0 < 2 ∧ (0 : ℚ) < 10 ∧ FrameSamplerSpec 10 2 (fun _ => some 200) :=
  ⟨by norm_num, by norm_num, C6_frameSampler 10 2 (fun _ => some 200) (by norm_num) (by norm_num)⟩

/-- Down-mixing never changes the sample rate. -/
theorem downmix_sampleRate (b : AudioBuffer) : (downmixMono b).sampleRate = b.sampleRate := by
  unfold downmixMono
  split <;> rfl

/-- The channel-loop sum of the down-mix equals the sum over channel indices. -/
theorem sum_map_getD (i : ℕ) :
    ∀ l : List (List ℚ),
      (l.map (fun ch => ch.getD i 0)).sum =
        ∑ c ∈ Finset.range l.length, (l.getD c []).getD i 0 := by
  intro l
  induction l with
  | nil => simp
  | cons a t ih =>
    simp only [List.map_cons, List.sum_cons, List.length_cons, Finset.sum_range_succ',
      List.getD_cons_succ, List.getD_cons_zero, ih]
    ring

/-- Indexing a map over a range. -/
theorem getD_map_range (n i : ℕ) (f : ℕ → ℚ) (hi : i < n) :
    ((List.range n).map f).getD i 0 = f i := by
  rw [List.getD_eq_getElem?_getD, List.getElem?_map, List.getElem?_range hi]
  rfl

/-- C3: down-mixing takes the exact per-sample arithmetic mean of all channels,
    and a source longer than the cap is truncated to exactly
    MAX_DURATION * sampleRate samples at an unchanged sample rate. -/
theorem C3_audioNormalize (b : AudioBuffer) (hsr : 0 < b.sampleRate) :
    AudioNormalizeSpec b := by
  constructor
  · intro hmc
    have hdm : downmixMono b =
        { sampleRate := b.sampleRate,
          channels := [(List.range b.length).map
            (fun i => (b.channels.map (fun ch => ch.getD i 0)).sum /
              (b.numberOfChannels : ℚ))] } := by
      unfold downmixMono
      rw [if_pos hmc]
    refine ⟨by rw [hdm]; rfl, by rw [hdm], ?_, ?_⟩
    · rw [hdm]
      simp [AudioBuffer.length]
    · intro i hi
      have hchan : getChannelData (downmixMono b) 0 =
          (List.range b.length).map
            (fun j => (b.channels.map (fun ch => ch.getD j 0)).sum /
              (b.numberOfChannels : ℚ)) := by
        rw [hdm]
        rfl
      rw [hchan, getD_map_range b.length i _ hi, sum_map_getD i b.channels]
      rfl
  · intro hdur
    have hproc : processAudio b =
        { sampleRate := (downmixMono b).sampleRate,
          channels := [((downmixMono b).channels.getD 0 []).take
            (MAX_DURATION * (downmixMono b).sampleRate)] } := by
      unfold processAudio truncateBuffer
      rw [if_pos hdur]
    have hsr' : (downmixMono b).sampleRate = b.sampleRate := downmix_sampleRate b
    have hsrq : (0 : ℚ) < ((downmixMono b).sampleRate : ℚ) := by
      rw [hsr']
      exact_mod_cast hsr
    have hlen : MAX_DURATION * (downmixMono b).sampleRate < (downmixMono b).length := by
      have h := hdur
      unfold AudioBuffer.duration at h
      rw [lt_div_iff₀ hsrq] at h
      exact_mod_cast h
    have hplen : (processAudio b).length = MAX_DURATION * b.sampleRate := by
      simp only [hproc, AudioBuffer.length, List.getD_cons_zero, List.length_take]
      have hdl : ((downmixMono b).channels.getD 0 []).length = (downmixMono b).length := rfl
      rw [hdl, min_eq_left (le_of_lt hlen), hsr']
    refine ⟨by rw [hproc]; simpa using hsr', hplen, ?_, ?_⟩
    · have hpsr : (processAudio b).sampleRate = b.sampleRate := by
        rw [hproc]
        simpa using hsr'
      unfold AudioBuffer.duration
      rw [hplen, hpsr]
      have hne : ((b.sampleRate : ℚ)) ≠ 0 := by
        exact_mod_cast Nat.pos_iff_ne_zero.mp hsr
      push_cast
      rw [mul_div_assoc, div_self hne, mul_one]
    · rw [hproc, ← hsr']
      rfl

/-- Witness for C3 on a stereo source of 121 samples at 1 Hz. -/
theorem C3_audioNormalize_witness :
    0 < (⟨1, [List.replicate 121 0, List.replicate 121 0]⟩ : AudioBuffer).sampleRate ∧
    AudioNormalizeSpec ⟨1, [List.replicate 121 0, List.replicate 121 0]⟩ :=
  ⟨by decide, C3_audioNormalize ⟨1, [List.replicate 121 0, List.replicate 121 0]⟩ (by decide)⟩

/-- Splitting a delimiter-free list yields a single segment. -/
theorem splitOnPred_clean (p : Char → Bool) :
    ∀ l : List Char, (∀ c ∈ l, p c = false) → splitOnPred p l = [l] := by
  intro l
  induction l with
  | nil => intro _; rfl
  | cons a t ih =>
    intro hclean
    have ha : p a = false := hclean a (List.mem_cons_self a t)
    have ht : splitOnPred p t = [t] := ih (fun c hc => hclean c (List.mem_cons_of_mem a hc))
    simp [splitOnPred, ha, ht]

/-- Splitting a delimiter-free prefix, a delimiter, and a remainder emits the
    prefix as the first segment. -/
theorem splitOnPred_clean_append (p : Char → Bool) :
    ∀ l1 : List Char, (∀ c ∈ l1, p c = false) → ∀ c : Char, p c = true → ∀ l2 : List Char,
      splitOnPred p (l1 ++ c :: l2) = l1 :: splitOnPred p l2 := by
  intro l1
  induction l1 with
  | nil =>
    intro _ c hc l2
    simp [splitOnPred, hc]
  | cons a t ih =>
    intro hclean c hc l2
    have ha : p a = false := hclean a (List.mem_cons_self a t)
    have ht := ih (fun x hx => hclean x (List.mem_cons_of_mem a hx)) c hc l2
    simp [splitOnPred, ha, ht]

/-- Code of a decimal digit character. -/
theorem digitChar_toNat (d : ℕ) (hd : d < 10) : (digitChar d).toNat = 48 + d := by
  interval_cases d <;> decide

/-- A decimal digit character is a digit. -/
theorem digitChar_isDigit (d : ℕ) (hd : d < 10) : (digitChar d).isDigit = true := by
  interval_cases d <;> decide

/-- A decimal digit character is not a timestamp delimiter. -/
theorem isDelim_digitChar (d : ℕ) (hd : d < 10) : isDelim (digitChar d) = false := by
  interval_cases d <;> decide

/-- A run of digit characters is wholly kept by takeWhile isDigit. -/
theorem takeWhile_digits :
    ∀ l : List Char, (∀ c ∈ l, c.isDigit = true) → l.takeWhile Char.isDigit = l := by
  intro l
  induction l with
  | nil => intro _; rfl
  | cons a t ih =>
    intro hdig
    have ha : a.isDigit = true := hdig a (List.mem_cons_self a t)
    have ht := ih (fun c hc => hdig c (List.mem_cons_of_mem a hc))
    simp [List.takeWhile_cons, ha, ht]

/-- parseInt of the two-digit rendering. -/
theorem parseIntDigits_twoDigits (n : ℕ) (hn : n < 100) : parseIntDigits (twoDigits n) = n := by
  have h1 : n / 10 < 10 := by omega
  have h2 : n % 10 < 10 := by omega
  unfold parseIntDigits
  rw [takeWhile_digits (twoDigits n) ?hd]
  case hd =>
    intro c hc
    simp only [twoDigits, List.mem_cons, List.not_mem_nil, or_false] at hc
    rcases hc with rfl | rfl
    · exact digitChar_isDigit _ h1
    · exact digitChar_isDigit _ h2
  unfold twoDigits
  simp only [List.foldl_cons, List.foldl_nil, digitChar_toNat _ h1, digitChar_toNat _ h2]
  omega

/-- parseInt of the three-digit rendering. -/
theorem parseIntDigits_threeDigits (n : ℕ) (hn : n < 1000) :
    parseIntDigits (threeDigits n) = n := by
  have h1 : n / 100 < 10 := by omega
  have h2 : n / 10 % 10 < 10 := by omega
  have h3 : n % 10 < 10 := by omega
  unfold parseIntDigits
  rw [takeWhile_digits (threeDigits n) ?hd]
  case hd =>
    intro c hc
    simp only [threeDigits, List.mem_cons, List.not_mem_nil, or_false] at hc
    rcases hc with rfl | rfl | rfl
    · exact digitChar_isDigit _ h1
    · exact digitChar_isDigit _ h2
    · exact digitChar_isDigit _ h3
  unfold threeDigits
  simp only [List.foldl_cons, List.foldl_nil, digitChar_toNat _ h1, digitChar_toNat _ h2,
    digitChar_toNat _ h3]
  omega

/-- No character of the two-digit rendering is a delimiter. -/
theorem twoDigits_clean (n : ℕ) (hn : n < 100) : ∀ c ∈ twoDigits n, isDelim c = false := by
  intro c hc
  simp only [twoDigits, List.mem_cons, List.not_mem_nil, or_false] at hc
  rcases hc with rfl | rfl
  · exact isDelim_digitChar _ (by omega)
  · exact isDelim_digitChar _ (by omega)

/-- No character of the three-digit rendering is a delimiter. -/
theorem threeDigits_clean (n : ℕ) (hn : n < 1000) : ∀ c ∈ threeDigits n, isDelim c = false := by
  intro c hc
  simp only [threeDigits, List.mem_cons, List.not_mem_nil, or_false] at hc
  rcases hc with rfl | rfl | rfl
  · exact isDelim_digitChar _ (by omega)
  · exact isDelim_digitChar _ (by omega)
  · exact isDelim_digitChar _ (by omega)

/-- The claimed timestamp conversion: a well-formed timestamp with either
    milliseconds separator converts to h*3600 + m*60 + s + ms/1000 seconds. -/
theorem timeToSeconds_formula (h m s ms : ℕ) (sep : Char)
    (hh : h < 100) (hm : m < 100) (hs : s < 100) (hms : ms < 1000)
    (hsep : sep = ',' ∨ sep = '.') :
    timeToSeconds
        (twoDigits h ++ ':' :: (twoDigits m ++ ':' :: (twoDigits s ++ sep :: threeDigits ms))) =
      (h : ℚ) * 3600 + (m : ℚ) * 60 + (s : ℚ) + (ms : ℚ) / 1000 := by
  have hsept : isDelim sep = true := by
    rcases hsep with rfl | rfl <;> decide
  have hcolon : isDelim ':' = true := by decide
  have hsplit : splitOnPred isDelim
      (twoDigits h ++ ':' :: (twoDigits m ++ ':' :: (twoDigits s ++ sep :: threeDigits ms))) =
      [twoDigits h, twoDigits m, twoDigits s, threeDigits ms] := by
    rw [splitOnPred_clean_append isDelim _ (twoDigits_clean h hh) _ hcolon,
        splitOnPred_clean_append isDelim _ (twoDigits_clean m hm) _ hcolon,
        splitOnPred_clean_append isDelim _ (twoDigits_clean s hs) _ hsept,
        splitOnPred_clean isDelim _ (threeDigits_clean ms hms)]
  unfold timeToSeconds
  rw [hsplit]
  rw [if_neg (by norm_num)]
  have g0 : [twoDigits h, twoDigits m, twoDigits s, threeDigits ms].getD 0 [] = twoDigits h := rfl
  have g1 : [twoDigits h, twoDigits m, twoDigits s, threeDigits ms].getD 1 [] = twoDigits m := rfl
  have g2 : [twoDigits h, twoDigits m, twoDigits s, threeDigits ms].getD 2 [] = twoDigits s := rfl
  have g3 : [twoDigits h, twoDigits m, twoDigits s, threeDigits ms].getD 3 [] = threeDigits ms := rfl
  rw [g0, g1, g2, g3, if_pos (by simp [threeDigits]),
      parseIntDigits_twoDigits h hh, parseIntDigits_twoDigits m hm,
      parseIntDigits_twoDigits s hs, parseIntDigits_threeDigits ms hms]

/-- A block whose second line has no timestamp match parses to nothing. -/
theorem parseBlock_none (b : List Char)
    (hb : findTimeMatch ((b.splitOn '\n').getD 1 []) = none) : parseBlock b = none := by
  unfold parseBlock
  rw [hb]
  split_ifs <;> rfl

/-- Concrete conversion of the timestamp one second. -/
theorem timeToSeconds_one : timeToSeconds "00:00:01,000".data = 1 := by
  have hd : "00:00:01,000".data =
      twoDigits 0 ++ ':' :: (twoDigits 0 ++ ':' :: (twoDigits 1 ++ ',' :: threeDigits 0)) := by
    decide
  rw [hd, timeToSeconds_formula 0 0 1 0 ',' (by norm_num) (by norm_num) (by norm_num)
    (by norm_num) (Or.inl rfl)]
  norm_num

/-- Concrete conversion of the timestamp two and a half seconds. -/
theorem timeToSeconds_twoHalf : timeToSeconds "00:00:02,500".data = 5 / 2 := by
  have hd : "00:00:02,500".data =
      twoDigits 0 ++ ':' :: (twoDigits 0 ++ ':' :: (twoDigits 2 ++ ',' :: threeDigits 500)) := by
    decide
  rw [hd, timeToSeconds_formula 0 0 2 500 ',' (by norm_num) (by norm_num) (by norm_num)
    (by norm_num) (Or.inl rfl)]
  norm_num

/-- Concrete conversion of the timestamp two seconds. -/
theorem timeToSeconds_two : timeToSeconds "00:00:02,000".data = 2 := by
  have hd : "00:00:02,000".data =
      twoDigits 0 ++ ':' :: (twoDigits 0 ++ ':' :: (twoDigits 2 ++ ',' :: threeDigits 0)) := by
    decide
  rw [hd, timeToSeconds_formula 0 0 2 0 ',' (by norm_num) (by norm_num) (by norm_num)
    (by norm_num) (Or.inl rfl)]
  norm_num

/-- Concrete conversion of the timestamp five seconds. -/
theorem timeToSeconds_five : timeToSeconds "00:00:05,000".data = 5 := by
  have hd : "00:00:05,000".data =
      twoDigits 0 ++ ':' :: (twoDigits 0 ++ ':' :: (twoDigits 5 ++ ',' :: threeDigits 0)) := by
    decide
  rw [hd, timeToSeconds_formula 0 0 5 0 ',' (by norm_num) (by norm_num) (by norm_num)
    (by norm_num) (Or.inl rfl)]
  norm_num

/-- C5: the SRT parser produces exactly the one expected caption on the
    reference input; a block whose timestamp line fails the pattern is dropped
    without aborting later blocks; and timestamps convert to seconds as
    h*3600 + m*60 + s + ms/1000 with either milliseconds separator. -/
theorem C5_parseSrt :
    parseSrt "1\n00:00:01,000 --> 00:00:02,500\nHello world\n\n".data =
      [⟨"Hello world".data, 1, 5 / 2, none, none⟩] ∧
    (∀ (bs1 : List (List Char)) (b : List Char) (bs2 : List (List Char)),
      findTimeMatch ((b.splitOn '\n').getD 1 []) = none →
      List.filterMap parseBlock (bs1 ++ b :: bs2) =
        List.filterMap parseBlock bs1 ++ List.filterMap parseBlock bs2) ∧
    (∀ (h m s ms : ℕ) (sep : Char), h < 100 → m < 100 → s < 100 → ms < 1000 →
      sep = ',' ∨ sep = '.' →
      timeToSeconds
          (twoDigits h ++ ':' :: (twoDigits m ++ ':' :: (twoDigits s ++ sep :: threeDigits ms))) =
        (h : ℚ) * 3600 + (m : ℚ) * 60 + (s : ℚ) + (ms : ℚ) / 1000) := by
  refine ⟨?_, ?_, ?_⟩
  · have hstruct : parseSrt "1\n00:00:01,000 --> 00:00:02,500\nHello world\n\n".data =
        [⟨"Hello world".data, timeToSeconds "00:00:01,000".data,
          timeToSeconds "00:00:02,500".data, none, none⟩] := by
      rfl
    rw [hstruct, timeToSeconds_one, timeToSeconds_twoHalf]
  · intro bs1 b bs2 hb
    rw [List.filterMap_append, List.filterMap_cons_none (parseBlock_none b hb)]
  · intro h m s ms sep hh hm hs hms hsep
    exact timeToSeconds_formula h m s ms sep hh hm hs hms hsep

/-- Witness for C5: a malformed middle block is dropped while the block after it
    still parses, and a concrete timestamp converts by the formula. -/
theorem C5_parseSrt_witness :
    findTimeMatch (("1\nBAD\nX".data.splitOn '\n').getD 1 []) = none ∧
    List.filterMap parseBlock
        ([] ++ "1\nBAD\nX".data :: ["2\n00:00:01,000 --> 00:00:02,000\nOk".data]) =
      List.filterMap parseBlock [] ++
        List.filterMap parseBlock ["2\n00:00:01,000 --> 00:00:02,000\nOk".data] ∧
    timeToSeconds
        (twoDigits 0 ++ ':' :: (twoDigits 0 ++ ':' :: (twoDigits 1 ++ ',' :: threeDigits 0))) =
      ((0 : ℕ) : ℚ) * 3600 + ((0 : ℕ) : ℚ) * 60 + ((1 : ℕ) : ℚ) + ((0 : ℕ) : ℚ) / 1000 :=
  ⟨by decide,
    C5_parseSrt.2.1 [] "1\nBAD\nX".data ["2\n00:00:01,000 --> 00:00:02,000\nOk".data] (by decide),
    C5_parseSrt.2.2 0 0 1 0 ',' (by norm_num) (by norm_num) (by norm_num) (by norm_num)
      (Or.inl rfl)⟩

/-- C9 (counterexample): the parser returns blocks in document order without
    sorting by start time and without enforcing start < end: an SRT file whose
    first block runs from five to two seconds and whose second starts at one
    second yields a first caption with start after end, placed before a caption
    with a smaller start. -/
theorem C9_counterexample :
    (parseSrt
        "1\n00:00:05,000 --> 00:00:02,000\nA\n\n2\n00:00:01,000 --> 00:00:02,000\nB\n\n".data).map
        (fun sub => (sub.start, sub.«end»)) = [(5, 2), (1, 2)] ∧
    ¬ ((5 : ℚ) < 2) ∧ ¬ ((5 : ℚ) ≤ 1) := by
  refine ⟨?_, by norm_num, by norm_num⟩
  have hstruct : parseSrt
      "1\n00:00:05,000 --> 00:00:02,000\nA\n\n2\n00:00:01,000 --> 00:00:02,000\nB\n\n".data =
      [⟨"A".data, timeToSeconds "00:00:05,000".data, timeToSeconds "00:00:02,000".data,
        none, none⟩,
       ⟨"B".data, timeToSeconds "00:00:01,000".data, timeToSeconds "00:00:02,000".data,
        none, none⟩] := by
    rfl
  rw [hstruct, List.map_cons, List.map_cons, List.map_nil, timeToSeconds_five,
    timeToSeconds_two, timeToSeconds_one]

/-- C9 (amended): the parser emits captions in document (block) order, parsing
    distributing over block concatenation, and every caption comes from some
    block of the input; it neither sorts by start time nor enforces start < end. -/
theorem C9_documentOrder :
    (∀ bs1 bs2 : List (List Char),
      List.filterMap parseBlock (bs1 ++ bs2) =
        List.filterMap parseBlock bs1 ++ List.filterMap parseBlock bs2) ∧
    (∀ t : List Char, ∀ sub ∈ parseSrt t,
      ∃ blk ∈ splitBlocks (t.filter (fun c => !(c == '\r'))), parseBlock blk = some sub) := by
  constructor
  · intro bs1 bs2
    exact List.filterMap_append bs1 bs2 parseBlock
  · intro t sub hs
    exact List.mem_filterMap.mp hs

/-- Witness for C9: the caption parsed from the reference input comes from a
    block of that input. -/
theorem C9_documentOrder_witness :
    (⟨"Hello world".data, timeToSeconds "00:00:01,000".data,
        timeToSeconds "00:00:02,500".data, none, none⟩ : Subtitle) ∈
      parseSrt "1\n00:00:01,000 --> 00:00:02,500\nHello world\n\n".data ∧
    ∃ blk ∈ splitBlocks
        ("1\n00:00:01,000 --> 00:00:02,500\nHello world\n\n".data.filter
          (fun c => !(c == '\r'))),
      parseBlock blk = some ⟨"Hello world".data, timeToSeconds "00:00:01,000".data,
        timeToSeconds "00:00:02,500".data, none, none⟩ := by
  have hstruct : parseSrt "1\n00:00:01,000 --> 00:00:02,500\nHello world\n\n".data =
      [⟨"Hello world".data, timeToSeconds "00:00:01,000".data,
        timeToSeconds "00:00:02,500".data, none, none⟩] := by
    rfl
  have hmem : (⟨"Hello world".data, timeToSeconds "00:00:01,000".data,
      timeToSeconds "00:00:02,500".data, none, none⟩ : Subtitle) ∈
      parseSrt "1\n00:00:01,000 --> 00:00:02,500\nHello world\n\n".data := by
    rw [hstruct]
    exact List.mem_singleton.mpr rfl
  exact ⟨hmem, C9_documentOrder.2 _ _ hmem⟩

/-- The header bytes written by audioBufferToWav, fully explicit. -/
theorem wavHeader_explicit (nc sr ds : ℕ) :
    wavHeader nc sr ds =
      82 :: 73 :: 70 :: 70 ::
      ((36 + ds) % 256) :: ((36 + ds) / 256 % 256) :: ((36 + ds) / 65536 % 256) ::
        ((36 + ds) / 16777216 % 256) ::
      87 :: 65 :: 86 :: 69 ::
      102 :: 109 :: 116 :: 32 ::
      16 :: 0 :: 0 :: 0 ::
      1 :: 0 ::
      (nc % 256) :: (nc / 256 % 256) ::
      (sr % 256) :: (sr / 256 % 256) :: (sr / 65536 % 256) :: (sr / 16777216 % 256) ::
      ((sr * (nc * 2)) % 256) :: ((sr * (nc * 2)) / 256 % 256) ::
        ((sr * (nc * 2)) / 65536 % 256) :: ((sr * (nc * 2)) / 16777216 % 256) ::
      ((nc * 2) % 256) :: ((nc * 2) / 256 % 256) ::
      16 :: 0 ::
      100 :: 97 :: 116 :: 97 ::
      (ds % 256) :: (ds / 256 % 256) :: (ds / 65536 % 256) :: (ds / 16777216 % 256) :: [] := by
  rfl

/-- Reading one sample slot past a leading byte. -/
theorem readU16_cons_succ (x : ℕ) (l : List ℕ) (k : ℕ) :
    readU16 (x :: l) (k + 1) = readU16 l k := by
  unfold readU16
  rw [List.drop_succ_cons]

/-- The sample bytes of one converted sample, explicit. -/
theorem flatMap_i16le_cons (f : ℚ → ℤ) (a : ℚ) (t : List ℚ) :
    (a :: t).flatMap (fun x => i16le (f x)) =
      ((f a % 65536).toNat % 256) :: ((f a % 65536).toNat / 256 % 256) ::
        t.flatMap (fun x => i16le (f x)) := by
  rfl

/-- Reading back the i-th converted sample from the serialized sample bytes. -/
theorem readU16_i16le_flatMap (f : ℚ → ℤ) :
    ∀ (l : List ℚ) (i : ℕ), i < l.length →
      readU16 (l.flatMap (fun x => i16le (f x))) (2 * i) = ((f (l.getD i 0)) % 65536).toNat := by
  intro l
  induction l with
  | nil => intro i hi; simp at hi
  | cons a t ih =>
    intro i hi
    have hmod : (0 : ℤ) ≤ f a % 65536 := Int.emod_nonneg _ (by norm_num)
    have hlt : f a % 65536 < 65536 := Int.emod_lt_of_pos _ (by norm_num)
    have htn : (f a % 65536).toNat < 65536 := by omega
    cases i with
    | zero =>
      rw [flatMap_i16le_cons, Nat.mul_zero, List.getD_cons_zero]
      have h0 : readU16 (((f a % 65536).toNat % 256) :: ((f a % 65536).toNat / 256 % 256) ::
          t.flatMap (fun x => i16le (f x))) 0 =
          ((f a % 65536).toNat % 256) + 256 * ((f a % 65536).toNat / 256 % 256) := rfl
      rw [h0]
      omega
    | succ j =>
      rw [flatMap_i16le_cons, List.getD_cons_succ]
      have harith : 2 * (j + 1) = 2 * j + 1 + 1 := by ring
      rw [harith, readU16_cons_succ, readU16_cons_succ]
      exact ih j (by simpa using hi)

/-- C1: the WAV serializer emits the exact claimed 44-byte PCM header, followed
    by the clamp-and-scale 16-bit samples, and parsing the header recovers the
    dataSize, sampleRate, channelCount and bitDepth used to encode. -/
theorem C1_wavLayout (b : AudioBuffer)
    (h1 : b.numberOfChannels * 2 < 65536)
    (h2 : b.sampleRate < 4294967296)
    (h3 : 36 + (wavResult b).length * 2 < 4294967296)
    (h4 : b.sampleRate * (b.numberOfChannels * 2) < 4294967296) :
    WavLayout b := by
  have hb : audioBufferToWav b =
      82 :: 73 :: 70 :: 70 ::
      ((36 + (wavResult b).length * 2) % 256) :: ((36 + (wavResult b).length * 2) / 256 % 256) ::
        ((36 + (wavResult b).length * 2) / 65536 % 256) ::
        ((36 + (wavResult b).length * 2) / 16777216 % 256) ::
      87 :: 65 :: 86 :: 69 ::
      102 :: 109 :: 116 :: 32 ::
      16 :: 0 :: 0 :: 0 ::
      1 :: 0 ::
      (b.numberOfChannels % 256) :: (b.numberOfChannels / 256 % 256) ::
      (b.sampleRate % 256) :: (b.sampleRate / 256 % 256) :: (b.sampleRate / 65536 % 256) ::
        (b.sampleRate / 16777216 % 256) ::
      ((b.sampleRate * (b.numberOfChannels * 2)) % 256) ::
        ((b.sampleRate * (b.numberOfChannels * 2)) / 256 % 256) ::
        ((b.sampleRate * (b.numberOfChannels * 2)) / 65536 % 256) ::
        ((b.sampleRate * (b.numberOfChannels * 2)) / 16777216 % 256) ::
      ((b.numberOfChannels * 2) % 256) :: ((b.numberOfChannels * 2) / 256 % 256) ::
      16 :: 0 ::
      100 :: 97 :: 116 :: 97 ::
      (((wavResult b).length * 2) % 256) :: (((wavResult b).length * 2) / 256 % 256) ::
        (((wavResult b).length * 2) / 65536 % 256) ::
        (((wavResult b).length * 2) / 16777216 % 256) ::
      (wavResult b).flatMap (fun x => i16le (floatTo16 x)) := by
    unfold audioBufferToWav
    rw [wavHeader_explicit]
    simp only [List.cons_append, List.nil_append]
  have e0 : (audioBufferToWav b).take 4 = writeString "RIFF" := by rw [hb]; rfl
  have e4 : readU32 (audioBufferToWav b) 4 =
      (36 + (wavResult b).length * 2) % 256 +
      256 * ((36 + (wavResult b).length * 2) / 256 % 256) +
      65536 * ((36 + (wavResult b).length * 2) / 65536 % 256) +
      16777216 * ((36 + (wavResult b).length * 2) / 16777216 % 256) := by rw [hb]; rfl
  have e8 : ((audioBufferToWav b).drop 8).take 4 = writeString "WAVE" := by rw [hb]; rfl
  have e12 : ((audioBufferToWav b).drop 12).take 4 = writeString "fmt " := by rw [hb]; rfl
  have e16 : readU32 (audioBufferToWav b) 16 = 16 + 256 * 0 + 65536 * 0 + 16777216 * 0 := by
    rw [hb]; rfl
  have e20 : readU16 (audioBufferToWav b) 20 = 1 + 256 * 0 := by rw [hb]; rfl
  have e22 : readU16 (audioBufferToWav b) 22 =
      b.numberOfChannels % 256 + 256 * (b.numberOfChannels / 256 % 256) := by rw [hb]; rfl
  have e24 : readU32 (audioBufferToWav b) 24 =
      b.sampleRate % 256 + 256 * (b.sampleRate / 256 % 256) +
      65536 * (b.sampleRate / 65536 % 256) + 16777216 * (b.sampleRate / 16777216 % 256) := by
    rw [hb]; rfl
  have e28 : readU32 (audioBufferToWav b) 28 =
      (b.sampleRate * (b.numberOfChannels * 2)) % 256 +
      256 * ((b.sampleRate * (b.numberOfChannels * 2)) / 256 % 256) +
      65536 * ((b.sampleRate * (b.numberOfChannels * 2)) / 65536 % 256) +
      16777216 * ((b.sampleRate * (b.numberOfChannels * 2)) / 16777216 % 256) := by
    rw [hb]; rfl
  have e32 : readU16 (audioBufferToWav b) 32 =
      (b.numberOfChannels * 2) % 256 + 256 * ((b.numberOfChannels * 2) / 256 % 256) := by
    rw [hb]; rfl
  have e34 : readU16 (audioBufferToWav b) 34 = 16 + 256 * 0 := by rw [hb]; rfl
  have e36 : ((audioBufferToWav b).drop 36).take 4 = writeString "data" := by rw [hb]; rfl
  have e40 : readU32 (audioBufferToWav b) 40 =
      ((wavResult b).length * 2) % 256 + 256 * (((wavResult b).length * 2) / 256 % 256) +
      65536 * (((wavResult b).length * 2) / 65536 % 256) +
      16777216 * (((wavResult b).length * 2) / 16777216 % 256) := by rw [hb]; rfl
  have e44 : (audioBufferToWav b).drop 44 =
      (wavResult b).flatMap (fun x => i16le (floatTo16 x)) := by rw [hb]; rfl
  have c4 : readU32 (audioBufferToWav b) 4 = 36 + (wavResult b).length * 2 := by
    rw [e4]; omega
  have c16 : readU32 (audioBufferToWav b) 16 = 16 := by rw [e16]
  have c20 : readU16 (audioBufferToWav b) 20 = 1 := by rw [e20]
  have c22 : readU16 (audioBufferToWav b) 22 = b.numberOfChannels := by rw [e22]; omega
  have c24 : readU32 (audioBufferToWav b) 24 = b.sampleRate := by rw [e24]; omega
  have c28 : readU32 (audioBufferToWav b) 28 =
      b.sampleRate * (b.numberOfChannels * 2) := by rw [e28]; omega
  have c32 : readU16 (audioBufferToWav b) 32 = b.numberOfChannels * 2 := by rw [e32]; omega
  have c34 : readU16 (audioBufferToWav b) 34 = 16 := by rw [e34]
  have c40 : readU32 (audioBufferToWav b) 40 = (wavResult b).length * 2 := by rw [e40]; omega
  have hlen44 : 44 ≤ (audioBufferToWav b).length := by
    rw [hb]
    simp only [List.length_cons]
    omega
  have hparse : parseWavHeader (audioBufferToWav b) =
      some ⟨(wavResult b).length * 2, b.sampleRate, b.numberOfChannels, 16⟩ := by
    unfold parseWavHeader
    rw [if_pos ⟨hlen44, e0, e8, e36⟩, c40, c24, c22, c34]
  refine ⟨e0, c4, e8, e12, c16, c20, c22, c24, c28, c32, c34, e36, c40, e44, ?_, hparse⟩
  intro i hi
  rw [e44]
  exact readU16_i16le_flatMap floatTo16 (wavResult b) i hi

/-- Witness for C1 on a short mono buffer. -/
theorem C1_wavLayout_witness :
    (⟨8000, [[1/2, -1/2, 0]]⟩ : AudioBuffer).numberOfChannels * 2 < 65536 ∧
    (⟨8000, [[1/2, -1/2, 0]]⟩ : AudioBuffer).sampleRate < 4294967296 ∧
    36 + (wavResult ⟨8000, [[1/2, -1/2, 0]]⟩).length * 2 < 4294967296 ∧
    (⟨8000, [[1/2, -1/2, 0]]⟩ : AudioBuffer).sampleRate *
      ((⟨8000, [[1/2, -1/2, 0]]⟩ : AudioBuffer).numberOfChannels * 2) < 4294967296 ∧
    WavLayout ⟨8000, [[1/2, -1/2, 0]]⟩ :=
  ⟨by decide, by decide, by decide, by decide,
    C1_wavLayout ⟨8000, [[1/2, -1/2, 0]]⟩ (by decide) (by decide) (by decide) (by decide)⟩
